import Mathlib

/-!
# Discord server directory scraper (`src/main.js`)

Shallow embedding of the extraction and crawl-scoping code of `main.js`:

* JavaScript strings are lists of characters (`Str`), that is, well-formed text;
* a parsed page is a forest of element and text nodes (`Nodes`);
* the CSS selectors used by the scraper are values of `SelectorList`;
* platform services the script calls but does not define (the `URL` constructor,
  `String.prototype.toLowerCase`, the layout-dependent `innerText`, `fetch`, the
  clock) are parameters;
* a thrown JavaScript exception is the `error` case of `Except JsError`.
-/

namespace Scraper

/-! ## Strings -/

/-- JavaScript string values. -/
abbrev Str := List Char

/-- The operator `a || b` on strings: the empty string is falsy. -/
def jsOr (a b : Str) : Str := if a = [] then b else a

/-- The expression `x || ''` where `x` is a string or `undefined`. -/
def orEmpty (x : Option Str) : Str :=
  match x with
  | some s => s
  | none => []

/-- The method `String.prototype.startsWith`. -/
def startsWith : Str → Str → Bool
  | _, [] => true
  | [], _ :: _ => false
  | c :: cs, p :: ps => c == p && startsWith cs ps

/-- The method `String.prototype.includes`. -/
def includes : Str → Str → Bool
  | [], needle => startsWith [] needle
  | c :: cs, needle => startsWith (c :: cs) needle || includes cs needle

/-- White space and line terminators removed by `String.prototype.trim`. -/
def isJsWhitespace (c : Char) : Bool :=
  let n := c.toNat
  n == 0x09 || n == 0x0A || n == 0x0B || n == 0x0C || n == 0x0D ||
  n == 0x20 || n == 0xA0 || n == 0x1680 ||
  (decide (0x2000 ≤ n) && decide (n ≤ 0x200A)) ||
  n == 0x2028 || n == 0x2029 || n == 0x202F || n == 0x205F ||
  n == 0x3000 || n == 0xFEFF

/-- Removes trailing white space. -/
def trimEnd : Str → Str
  | [] => []
  | c :: cs =>
    match trimEnd cs with
    | [] => if isJsWhitespace c then [] else [c]
    | r :: rs => c :: r :: rs

/-- The method `String.prototype.trim`. -/
def jsTrim (s : Str) : Str := trimEnd (s.dropWhile isJsWhitespace)

/-- The class `\d` of a JavaScript regular expression: the ten ASCII digits. -/
def isDigitChar (c : Char) : Bool := decide (0x30 ≤ c.toNat) && decide (c.toNat ≤ 0x39)

/-- The call `s.replace(/[^\d]/g, '')`. -/
def stripNonDigits (s : Str) : Str := s.filter isDigitChar

/-! ## Documents -/

/-- Attributes of an element, in source order. -/
abbrev Attrs := List (Str × Str)

/-- A list of sibling nodes. `text s next` is a text node followed by its later siblings,
`elem tag attrs children next` an element followed by its later siblings. -/
inductive Nodes where
  | nil
  | text (s : Str) (next : Nodes)
  | elem (tag : Str) (attrs : Attrs) (children : Nodes) (next : Nodes)
  deriving DecidableEq, Repr

/-- Tag name and attributes of an element, without its content. -/
structure Tagged where
  tag : Str
  attrs : Attrs
  deriving DecidableEq, Repr

/-- An element of a document: its own data, its children, and the chain of its ancestors,
nearest first. -/
structure Element where
  tag : Str
  attrs : Attrs
  children : Nodes
  ancestors : List Tagged
  deriving DecidableEq, Repr

/-- Tag name and attributes of an element. -/
def Element.tagged (e : Element) : Tagged := ⟨e.tag, e.attrs⟩

/-- Concatenated text of all text nodes, in document order. -/
def Nodes.textContent : Nodes → Str
  | .nil => []
  | .text s next => s ++ next.textContent
  | .elem _ _ cs next => cs.textContent ++ next.textContent

/-- All elements of a forest in document order, each with its ancestor chain; `anc` is the
chain of the forest's parent. -/
def Nodes.elements (anc : List Tagged) : Nodes → List Element
  | .nil => []
  | .text _ next => next.elements anc
  | .elem tag attrs cs next =>
    ⟨tag, attrs, cs, anc⟩ :: (cs.elements (⟨tag, attrs⟩ :: anc) ++ next.elements anc)

/-- Value of an attribute, `none` when the element does not carry it. -/
def getAttr (attrs : Attrs) (name : Str) : Option Str :=
  match attrs with
  | [] => none
  | (k, v) :: rest => if k = name then some v else getAttr rest name

/-- ASCII white space, which separates the tokens of a `class` attribute in a browser. -/
def isHtmlSpace (c : Char) : Bool :=
  let n := c.toNat
  n == 0x09 || n == 0x0A || n == 0x0C || n == 0x0D || n == 0x20

/-- Splits a `class` attribute into its tokens at the characters `sep`; `cur` is the token
being read, reversed. -/
def classTokensAux (sep : Char → Bool) : Str → Str → List Str
  | [], cur => if cur = [] then [] else [cur.reverse]
  | c :: cs, cur =>
    if sep c then
      (if cur = [] then classTokensAux sep cs [] else cur.reverse :: classTokensAux sep cs [])
    else classTokensAux sep cs (c :: cur)

/-- The class list of an element, for the separators `sep`. The selector engine of cheerio
tests a class name between characters of the class `\s` of regular expressions
(`isJsWhitespace`), a browser splits the attribute at ASCII white space (`isHtmlSpace`). -/
def classList (sep : Char → Bool) (attrs : Attrs) : List Str :=
  classTokensAux sep (orEmpty (getAttr attrs "class".toList)) []

/-! ## Selectors -/

/-- Simple selectors occurring in the script. -/
inductive Simple where
  | tag (name : Str)
  | cls (name : Str)
  | hasAttr (name : Str)
  | attrContains (name : Str) (sub : Str)
  deriving DecidableEq, Repr

/-- A compound selector: all of its simple selectors must hold of one element. -/
abbrev Compound := List Simple

/-- A complex selector: compounds joined by the descendant combinator, left to right. -/
abbrev Complex := List Compound

/-- A comma-separated selector list. -/
abbrev SelectorList := List Complex

/-- One simple selector against one element; `sep` separates class names. Names are
compared as they are (documents in no-quirks mode, tag and attribute names in lower
case as the HTML parser leaves them). -/
def matchSimple (sep : Char → Bool) (t : Tagged) : Simple → Bool
  | .tag name => t.tag == name
  | .cls name => (classList sep t.attrs).contains name
  | .hasAttr name => (getAttr t.attrs name).isSome
  | .attrContains name sub =>
    match getAttr t.attrs name with
    | some v => sub != [] && includes v sub
    | none => false

/-- A compound selector against one element. -/
def matchCompound (sep : Char → Bool) (c : Compound) (t : Tagged) : Bool :=
  c.all (matchSimple sep t)

/-- The compounds to the left of the subject, nearest to the subject first, against the
ancestor chain of the subject. -/
def matchAncestors (sep : Char → Bool) : List Compound → List Tagged → Bool
  | [], _ => true
  | _ :: _, [] => false
  | c :: cs, a :: as =>
    (matchCompound sep c a && matchAncestors sep cs as) || matchAncestors sep (c :: cs) as

/-- A complex selector against an element with the given ancestor chain. -/
def matchComplex (sep : Char → Bool) (sel : Complex) (t : Tagged) (anc : List Tagged) :
    Bool :=
  match sel.reverse with
  | [] => false
  | c :: cs => matchCompound sep c t && matchAncestors sep cs anc

/-- A selector list against an element. -/
def matchesSelector (sep : Char → Bool) (sel : SelectorList) (e : Element) : Bool :=
  sel.any (fun c => matchComplex sep c e.tagged e.ancestors)

/-- Selector `name`. -/
def byTag (name : String) : Complex := [[Simple.tag name.toList]]

/-- Selector `.name`. -/
def byClass (name : String) : Complex := [[Simple.cls name.toList]]

/-- Selector `.outer inner`, a tag below a class. -/
def tagUnderClass (outer inner : String) : Complex :=
  [[Simple.cls outer.toList], [Simple.tag inner.toList]]

/-- Selector `a[href*="sub"]`. -/
def anchorHrefContains (sub : String) : Complex :=
  [[Simple.tag "a".toList, Simple.attrContains "href".toList sub.toList]]

/-! ## Platform services -/

/-- What the script reads from a `URL` object. -/
structure ParsedUrl where
  href : Str
  host : Str
  deriving DecidableEq, Repr

/-- Services of the host that the script calls and does not define.
`parseUrl input base` is `new URL(input, base)` (`base = none`: `new URL(input)`), with `none`
for the `TypeError` it throws on failure; `toLowerCase` is `String.prototype.toLowerCase`;
`innerText` is the property `innerText` of an element of the live page: its rendered text,
or `none` (`undefined`) for an element that is not an HTML element, such as an element of
an inline SVG or MathML fragment; `encodeURIComponent` is the global function of that
name. -/
structure Platform where
  parseUrl : Str → Option Str → Option ParsedUrl
  toLowerCase : Str → Str
  innerText : Element → Option Str
  encodeURIComponent : Str → Str

/-- Exceptions the script can raise by itself. -/
inductive JsError where
  | referenceError (identifier : String)
  | typeError (message : String)
  deriving DecidableEq, Repr

/-- Bindings declared at the top level of the module `main.js`: the imports, the input
options, the storages and the five functions. -/
def moduleBindings : List String :=
  ["Actor", "CheerioCrawler", "PlaywrightCrawler", "Dataset", "KeyValueStore",
   "input", "startUrls", "maxRequestsPerCrawl", "useBrowser", "followInternalOnly",
   "checkInvites", "concurrency", "dataset", "kv", "proxyConfiguration",
   "resolveUrl", "checkLink", "parseServerCardCheerio", "cheerioHandler",
   "playwrightHandler"]

/-- Globals of the host that the module refers to. -/
def hostGlobals : List String :=
  ["URL", "fetch", "Date", "Array", "document", "encodeURIComponent"]

/-- Parameters and local variables of `parseServerCardCheerio`, with those of its two
callbacks. -/
def parseServerCardBindings : List String :=
  ["$card", "baseUrl", "server", "invite", "a", "i", "el", "href", "membersText",
   "members_count", "onlineText", "online_count", "tags", "short_description",
   "source_url"]

/-- Identifiers visible inside `parseServerCardCheerio`. -/
def parseServerCardScope : List String :=
  parseServerCardBindings ++ moduleBindings ++ hostGlobals

/-- Evaluation of an identifier reference: a name without a binding in scope raises a
`ReferenceError`. -/
def lookupIdentifier (scope : List String) (name : String) : Except JsError Unit :=
  if name ∈ scope then .ok () else .error (.referenceError name)

/-- A callback applied to the elements of a selection in order (`.map`); an exception raised
by the callback ends the iteration. -/
def mapE {α β : Type} (f : α → Except JsError β) : List α → Except JsError (List β)
  | [] => .ok []
  | x :: xs =>
    match f x with
    | .error e => .error e
    | .ok y =>
      match mapE f xs with
      | .error e => .error e
      | .ok ys => .ok (y :: ys)

/-- A predicate callback applied to the elements of a selection in order (`.filter`). -/
def filterE {α : Type} (f : α → Except JsError Bool) : List α → Except JsError (List α)
  | [] => .ok []
  | x :: xs =>
    match f x with
    | .error e => .error e
    | .ok keep =>
      match filterE f xs with
      | .error e => .error e
      | .ok ys => .ok (if keep then x :: ys else ys)

/-! ## Static substrate (cheerio) -/

/-- The call `$(selector)` on the loaded document: all matching elements, document order. -/
def select (doc : Nodes) (sel : SelectorList) : List Element :=
  (doc.elements []).filter (matchesSelector isJsWhitespace sel)

/-- The call `$el.find(selector)`: the matching descendants of `el`, document order. The
selector is matched inside `el`: a compound left of a descendant combinator may be `el` or
one of its descendants, not an element above `el`. -/
def find (el : Element) (sel : SelectorList) : List Element :=
  (el.children.elements [el.tagged]).filter (matchesSelector isJsWhitespace sel)

/-- The call `.first().text()`: the text of the first element, `''` for an empty selection. -/
def firstText (sel : List Element) : Str :=
  match sel with
  | [] => []
  | e :: _ => e.children.textContent

/-- The call `.attr(name)` (alone or after `.first()`): the attribute of the first element,
`undefined` when the selection is empty or the attribute is missing. -/
def firstAttr (sel : List Element) (name : String) : Option Str :=
  match sel with
  | [] => none
  | e :: _ => getAttr e.attrs name.toList

/-- The function `resolveUrl(base, href)`: `null` when the `URL` constructor throws. -/
def resolveUrl (P : Platform) (base href : Str) : Option Str :=
  match P.parseUrl href (some base) with
  | some u => some u.href
  | none => none

/-! ## Field extraction on the static substrate -/

/-- The object built by the extractors, before the handler adds its annotations. -/
structure ServerItem where
  server_name : Str
  invite : Str
  members_count : Str
  online_count : Str
  tags : List Str
  short_description : Str
  source_url : Str
  deriving DecidableEq, Repr

/-- Selector `h3, .card__title, .server-card__name, .media-heading`. -/
def headingSelector : SelectorList :=
  [byTag "h3", byClass "card__title", byClass "server-card__name", byClass "media-heading"]

/-- Selector `a[href*="discord.gg"], a[href*="discord.com/invite"]`. -/
def inviteAnchorSelector : SelectorList :=
  [anchorHrefContains "discord.gg", anchorHrefContains "discord.com/invite"]

/-- Selector `[data-invite]`. -/
def dataInviteSelector : SelectorList := [[[Simple.hasAttr "data-invite".toList]]]

/-- Selector `a`. -/
def anchorSelector : SelectorList := [byTag "a"]

/-- Selector `.members, .server-count, .server-member-count`. -/
def membersSelector : SelectorList :=
  [byClass "members", byClass "server-count", byClass "server-member-count"]

/-- Selector `.online, .server-online-count`. -/
def onlineSelector : SelectorList := [byClass "online", byClass "server-online-count"]

/-- Selector `.tag, .tags a, .server-tags a`. -/
def tagListSelector : SelectorList :=
  [byClass "tag", tagUnderClass "tags" "a", tagUnderClass "server-tags" "a"]

/-- Selector `.desc, .server-description, .card__content p`. -/
def descriptionSelector : SelectorList :=
  [byClass "desc", byClass "server-description", tagUnderClass "card__content" "p"]

/-- The property `server.server_name` (line 47). -/
def parseServerCardCheerio.server_name (card : Element) : Str :=
  jsOr (jsTrim (firstText (find card headingSelector))) []

/-- The callback of the anchor scan (lines 54-57). Its first step evaluates the identifier
`$`, which has no binding inside `parseServerCardCheerio`. -/
def parseServerCardCheerio.inviteCallback (el : Element) : Except JsError Bool :=
  match lookupIdentifier parseServerCardScope "$" with
  | .error e => .error e
  | .ok _ =>
    let href := orEmpty (getAttr el.attrs "href".toList)
    .ok (includes href "discord.gg".toList || includes href "discord.com/invite".toList ||
      includes href "discordapp.com/invite".toList)

/-- The variable `invite` after lines 49-60: the href of the first invite anchor, else the
`data-invite` attribute, else the href found by the scan over all anchors. -/
def parseServerCardCheerio.invite (card : Element) : Except JsError Str :=
  let invite := orEmpty (firstAttr (find card inviteAnchorSelector) "href")
  if invite = [] then
    let invite := jsOr (orEmpty (firstAttr (find card dataInviteSelector) "data-invite")) invite
    if invite = [] then
      match filterE parseServerCardCheerio.inviteCallback (find card anchorSelector) with
      | .error e => .error e
      | .ok a => .ok (orEmpty (firstAttr a "href"))
    else .ok invite
  else .ok invite

/-- The constant `members_count` (lines 62-63). -/
def parseServerCardCheerio.members_count (card : Element) : Str :=
  let membersText := jsOr (jsTrim (firstText (find card membersSelector))) []
  jsOr (stripNonDigits membersText) []

/-- The constant `online_count` (lines 64-65). -/
def parseServerCardCheerio.online_count (card : Element) : Str :=
  let onlineText := jsOr (jsTrim (firstText (find card onlineSelector))) []
  jsOr (stripNonDigits onlineText) []

/-- The callback of the tag list (line 67). Its first step evaluates the identifier `$`. -/
def parseServerCardCheerio.tagCallback (el : Element) : Except JsError Str :=
  match lookupIdentifier parseServerCardScope "$" with
  | .error e => .error e
  | .ok _ => .ok (jsTrim el.children.textContent)

/-- The constant `tags` (line 67). The callback returns a string, never `null` or
`undefined`, so `.map` keeps one entry per element. -/
def parseServerCardCheerio.tags (card : Element) : Except JsError (List Str) :=
  mapE parseServerCardCheerio.tagCallback (find card tagListSelector)

/-- The constant `short_description` (line 69). -/
def parseServerCardCheerio.short_description (card : Element) : Str :=
  jsOr (jsTrim (firstText (find card descriptionSelector))) []

/-- The variable `source_url` after lines 71-72. -/
def parseServerCardCheerio.source_url (P : Platform) (card : Element) (baseUrl : Str) : Str :=
  let source_url := orEmpty (firstAttr (find card anchorSelector) "href")
  if source_url ≠ [] ∧ ¬ startsWith source_url "http".toList = true then
    jsOr (orEmpty (resolveUrl P baseUrl source_url)) source_url
  else source_url

/-- The value of the property `invite` in the returned object (line 76). -/
def parseServerCardCheerio.inviteProperty (P : Platform) (baseUrl invite : Str) : Str :=
  if invite ≠ [] then
    (if startsWith invite "http".toList then invite
     else jsOr (orEmpty (resolveUrl P baseUrl invite)) invite)
  else []

/-- The function `parseServerCardCheerio($card, baseUrl)` (lines 43-83). The statements run in
source order; the object literal of the `return` statement first evaluates the shorthand
property `server_name`, a reference to a variable of that name (the name was only assigned
as a property of `server`). -/
def parseServerCardCheerio (P : Platform) (card : Element) (baseUrl : Str) :
    Except JsError ServerItem :=
  let server_name := parseServerCardCheerio.server_name card
  match parseServerCardCheerio.invite card with
  | .error e => .error e
  | .ok invite =>
    let members_count := parseServerCardCheerio.members_count card
    let online_count := parseServerCardCheerio.online_count card
    match parseServerCardCheerio.tags card with
    | .error e => .error e
    | .ok tags =>
      let short_description := parseServerCardCheerio.short_description card
      let source_url := parseServerCardCheerio.source_url P card baseUrl
      match lookupIdentifier parseServerCardScope "server_name" with
      | .error e => .error e
      | .ok _ =>
        .ok { server_name := server_name
              invite := parseServerCardCheerio.inviteProperty P baseUrl invite
              members_count := members_count
              online_count := online_count
              tags := tags
              short_description := short_description
              source_url := source_url }

/-! ## Invite validation -/

/-- Request methods used by the validator. -/
inductive Method where
  | HEAD
  | GET
  deriving DecidableEq, Repr

/-- What the script reads from a `fetch` response. -/
structure Response where
  status : Nat
  url : Str
  deriving DecidableEq, Repr

/-- The function `fetch` as a function of method and URL: a response, or the message of the
error it rejects with. -/
abbrev Fetch := Method → Str → Except Str Response

/-- The object `result` of `checkLink`; `none` is `null`. -/
structure LinkResult where
  url : Str
  status : Option Nat
  finalUrl : Option Str
  error : Option Str
  deriving DecidableEq, Repr

/-- One run of `checkLink`: the requests it issued, in order, and the object it returned. -/
structure CheckRun where
  issued : List Method
  result : LinkResult
  deriving DecidableEq, Repr

/-- The function `checkLink(url)` (lines 25-40). -/
def checkLink (fetch : Fetch) (url : Str) : CheckRun :=
  match fetch .HEAD url with
  | .error message =>
    ⟨[.HEAD], { url := url, status := none, finalUrl := none, error := some message }⟩
  | .ok res =>
    let status := res.status
    let finalUrl := jsOr res.url url
    if res.status ≥ 400 then
      match fetch .GET url with
      | .error message =>
        ⟨[.HEAD, .GET],
          { url := url, status := some status, finalUrl := some finalUrl,
            error := some message }⟩
      | .ok res2 =>
        ⟨[.HEAD, .GET],
          { url := url, status := some res2.status,
            finalUrl := some (jsOr res2.url finalUrl), error := none }⟩
    else
      ⟨[.HEAD], { url := url, status := some status, finalUrl := some finalUrl,
                  error := none }⟩

/-! ## Link scoping -/

/-- A crawl request: its URL, the URL it was loaded from after redirects (if any) and the
entry `userData.startHost` (if any). -/
structure Request where
  url : Str
  loadedUrl : Option Str
  startHost : Option Str
  deriving DecidableEq, Repr

/-- The request as a handler receives it: the crawler has filled in `loadedUrl`, the URL
the page was loaded from after redirects. -/
def Request.load (r : Request) (loaded : Option Str) : Request :=
  { r with loadedUrl := loaded }

/-- The seed request built for one entry of `startUrls` (lines 250-257 and 269-276). -/
def startRequest (P : Platform) (u : Str) : Request :=
  match P.parseUrl u none with
  | some parsed => { url := u, loadedUrl := none, startHost := some parsed.host }
  | none => { url := u, loadedUrl := none, startHost := none }

/-- The list `startRequests`. -/
def startRequests (P : Platform) (startUrls : List Str) : List Request :=
  startUrls.map (startRequest P)

/-- The expression `request.userData.startHost || new URL(request.url).host`; `none` when the
constructor throws. -/
def scopeHost (P : Platform) (request : Request) : Option Str :=
  match request.startHost with
  | some h =>
    if h ≠ [] then some h
    else
      match P.parseUrl request.url none with
      | some u => some u.host
      | none => none
  | none =>
    match P.parseUrl request.url none with
    | some u => some u.host
    | none => none

/-- The function `transformRequestFunction` passed to `enqueueLinks` by both handlers
(lines 93-101 and 168-176): `none` is `null`, the candidate is dropped. -/
def transformRequestFunction (P : Platform) (followInternalOnly : Bool)
    (request r : Request) : Option Request :=
  if followInternalOnly then
    match scopeHost P request with
    | none => none
    | some startHost =>
      match P.parseUrl r.url none with
      | none => none
      | some u => if u.host ≠ startHost then none else some r
  else some r

/-- The request that `enqueueLinks` builds for a discovered link: the handlers pass no
`userData`, so the candidate carries no `startHost`. -/
def candidateRequest (url : Str) : Request :=
  { url := url, loadedUrl := none, startHost := none }

/-- Pages of a crawl rooted at the seed URL `seed`: the seed request, and every candidate
that the scoping transform of a page of the crawl lets through, each loaded from any URL
(redirects included). -/
inductive CrawlChain (P : Platform) (seed : Str) : Request → Prop where
  | start (loaded : Option Str) : CrawlChain P seed ((startRequest P seed).load loaded)
  | hop (page next : Request) (link : Str) (loaded : Option Str) :
      CrawlChain P seed page →
      transformRequestFunction P true page (candidateRequest link) = some next →
      CrawlChain P seed (next.load loaded)

/-! ## Static pipeline -/

/-- A record as handed to the result sink: the extracted item with the annotations added
by the handler. `none` stands for a property that is `null` or was never set. -/
structure OutputRecord where
  item : ServerItem
  invite_status : Option Nat
  invite_final_url : Option Str
  invite_error : Option Str
  source_page : Str
  extracted_at : Str
  deriving DecidableEq, Repr

/-- Selector `article, .card, .server-card, .server, .list-item, .media`. -/
def genericSelector : SelectorList :=
  [byTag "article", byClass "card", byClass "server-card", byClass "server",
   byClass "list-item", byClass "media"]

/-- Selector `a[href*="discord"]`. -/
def discordAnchorSelector : SelectorList := [anchorHrefContains "discord"]

/-- Selector `.server-tags`. -/
def serverTagsSelector : SelectorList := [byClass "server-tags"]

/-- Selector `.serverCard, .server-card`. -/
def fallbackSelector : SelectorList := [byClass "serverCard", byClass "server-card"]

/-- The filter callback of the generic pass (lines 105-108). -/
def candidateFilter (P : Platform) (el : Element) : Bool :=
  let txt := P.toLowerCase el.children.textContent
  includes txt "discord".toList || includes txt "invite".toList ||
    decide ((find el discordAnchorSelector).length > 0) ||
    decide ((find el serverTagsSelector).length > 0)

/-- The constant `candidates` (lines 105-108). -/
def candidates (P : Platform) (doc : Nodes) : List Element :=
  (select doc genericSelector).filter (candidateFilter P)

/-- The loop `.each((i, el) => ...)` of lines 111-115 and 120-124 over the selection `cards`,
appending to `items`; `parse` is the extractor called by the callback. -/
def eachCard (parse : Element → Except JsError ServerItem) :
    List Element → List ServerItem → Except JsError (List ServerItem)
  | [], items => .ok items
  | el :: rest, items =>
    match parse el with
    | .error e => .error e
    | .ok item =>
      if item.server_name ≠ [] ∨ item.invite ≠ [] then eachCard parse rest (items ++ [item])
      else eachCard parse rest items

/-- Lines 105-125 of `cheerioHandler`: the document-level selections evaluated, in order,
and the array `items`, or the exception that ended the handler. -/
structure Extraction where
  queried : List SelectorList
  items : Except JsError (List ServerItem)

/-- Card location and extraction of `cheerioHandler` (lines 105-125). -/
def cheerioExtract (P : Platform) (doc : Nodes) (url : Str) : Extraction :=
  match eachCard (fun el => parseServerCardCheerio P el url) (candidates P doc) [] with
  | .error e => ⟨[genericSelector], .error e⟩
  | .ok items =>
    if items.length = 0 then
      ⟨[genericSelector, fallbackSelector],
        eachCard (fun el => parseServerCardCheerio P el url) (select doc fallbackSelector) items⟩
    else ⟨[genericSelector], .ok items⟩

/-- The annotation of one item in the loops of lines 128-150; `now` is the clock reading. -/
def cheerioAnnotate (fetch : Fetch) (checkInvites : Bool) (url now : Str)
    (it : ServerItem) : OutputRecord :=
  if checkInvites ∧ it.invite ≠ [] then
    let res := (checkLink fetch it.invite).result
    { item := it
      invite_status := res.status
      invite_final_url := some (jsOr (orEmpty res.finalUrl) res.url)
      invite_error := (match res.error with
        | some m => if m = [] then none else some m
        | none => none)
      source_page := url
      extracted_at := now }
  else
    { item := it, invite_status := none, invite_final_url := none, invite_error := none
      source_page := url, extracted_at := now }

/-- Annotates the items in order; the `k`-th push reads the clock `clock k`. -/
def annotateAll (annotate : Str → ServerItem → OutputRecord) (clock : Nat → Str) :
    Nat → List ServerItem → List OutputRecord
  | _, [] => []
  | k, it :: rest => annotate (clock k) it :: annotateAll annotate clock (k + 1) rest

/-- Effects of one handler run on the result sink: the records passed to `dataset.pushData`,
in order, the key and value passed to `kv.setValue` (if reached), the document-level
selections evaluated and the exception the handler ended with (if any). -/
structure HandlerRun where
  pushed : List OutputRecord
  snapshot : Option (Str × List OutputRecord)
  queried : List SelectorList
  thrown : Option JsError

/-- The key `servers/` followed by the encoded page URL. -/
def snapshotKey (P : Platform) (url : Str) : Str :=
  "servers/".toList ++ P.encodeURIComponent url

/-- The function `cheerioHandler` (lines 86-158), without the call of `enqueueLinks`
(its scoping callback is `transformRequestFunction`) and the log lines. -/
def cheerioHandler (P : Platform) (fetch : Fetch) (clock : Nat → Str) (checkInvites : Bool)
    (request : Request) (doc : Nodes) : HandlerRun :=
  let url := match request.loadedUrl with
    | some u => u
    | none => request.url
  let ex := cheerioExtract P doc url
  match ex.items with
  | .error e => { pushed := [], snapshot := none, queried := ex.queried, thrown := some e }
  | .ok items =>
    let records := annotateAll (cheerioAnnotate fetch checkInvites url) clock 0 items
    { pushed := records, snapshot := some (snapshotKey P url, records),
      queried := ex.queried, thrown := none }

/-! ## Rendered pipeline -/

/-- The call `document.querySelectorAll(selector)`. -/
def documentQuerySelectorAll (doc : Nodes) (sel : SelectorList) : List Element :=
  (doc.elements []).filter (matchesSelector isHtmlSpace sel)

/-- The call `c.querySelectorAll(selector)`: the descendants of `c` that match the selector
in the document, so a compound left of a descendant combinator may also lie above `c`. -/
def querySelectorAll (c : Element) (sel : SelectorList) : List Element :=
  (c.children.elements (c.tagged :: c.ancestors)).filter (matchesSelector isHtmlSpace sel)

/-- The call `c.querySelector(selector)`: the first match, `none` for `null`. -/
def querySelector (c : Element) (sel : SelectorList) : Option Element :=
  (querySelectorAll c sel).head?

/-- The property `href` of an HTML anchor: the attribute resolved against the base URL of
the document, the attribute itself when it does not resolve, `''` without the attribute. -/
def hrefProperty (P : Platform) (baseURI : Str) (el : Element) : Str :=
  match getAttr el.attrs "href".toList with
  | none => []
  | some v =>
    match P.parseUrl v (some baseURI) with
    | some u => u.href
    | none => v

/-- Selector `article, .card, .server-card, .server, .list-item, .media, .serverCard`. -/
def containerSelector : SelectorList :=
  [byTag "article", byClass "card", byClass "server-card", byClass "server",
   byClass "list-item", byClass "media", byClass "serverCard"]

/-- Selector `h3, .card__title, .server-card__name, .media-heading, .title`. -/
def pageHeadingSelector : SelectorList :=
  [byTag "h3", byClass "card__title", byClass "server-card__name", byClass "media-heading",
   byClass "title"]

/-- Selector `a[href*="discord.gg"], a[href*="discord.com/invite"],
a[href*="discordapp.com/invite"]`. -/
def pageInviteSelector : SelectorList :=
  [anchorHrefContains "discord.gg", anchorHrefContains "discord.com/invite",
   anchorHrefContains "discordapp.com/invite"]

/-- Selector `a[href]`. -/
def linkSelector : SelectorList :=
  [[[Simple.tag "a".toList, Simple.hasAttr "href".toList]]]

/-- The pattern `el ? f(el.innerText) : ''` of lines 186-197, where `f` is a string method
(`trim`, or `replace` of the non-digits). Calling the method on `undefined` raises a
`TypeError`. -/
def readText (P : Platform) (el : Option Element) (f : Str → Str) : Except JsError Str :=
  match el with
  | none => .ok []
  | some e =>
    match P.innerText e with
    | some text => .ok (f text)
    | none => .error (.typeError "innerText is undefined")

/-- The body of the `try` block of the loop in `page.evaluate` (lines 185-199) for one
container, before the test of line 200: the object that would be pushed, or the exception
raised on the way. -/
def pageCard (P : Platform) (baseURI : Str) (c : Element) : Except JsError ServerItem :=
  match readText P (querySelector c pageHeadingSelector) jsTrim with
  | .error e => .error e
  | .ok name =>
    let invite := match querySelector c pageInviteSelector with
      | some aInvite => hrefProperty P baseURI aInvite
      | none => []
    match readText P (querySelector c membersSelector) stripNonDigits with
    | .error e => .error e
    | .ok members_count =>
      match readText P (querySelector c onlineSelector) stripNonDigits with
      | .error e => .error e
      | .ok online_count =>
        match mapE (fun t => readText P (some t) jsTrim)
            (querySelectorAll c tagListSelector) with
        | .error e => .error e
        | .ok tags =>
          match readText P (querySelector c descriptionSelector) jsTrim with
          | .error e => .error e
          | .ok short_description =>
            let source_url := match querySelector c linkSelector with
              | some linkEl => hrefProperty P baseURI linkEl
              | none => []
            .ok { server_name := name, invite := invite, members_count := members_count
                  online_count := online_count, tags := tags
                  short_description := short_description, source_url := source_url }

/-- The function evaluated in the page (lines 180-206): the array `out`. An exception
raised for a container is caught and the container is skipped (lines 201-203). -/
def pageEvaluate (P : Platform) (baseURI : Str) (doc : Nodes) : List ServerItem :=
  (documentQuerySelectorAll doc containerSelector).filterMap (fun c =>
    match pageCard P baseURI c with
    | .error _ => none
    | .ok item => if item.server_name ≠ [] ∨ item.invite ≠ [] then some item else none)

/-- The annotation of one item in the loops of lines 209-230. -/
def playwrightAnnotate (fetch : Fetch) (checkInvites : Bool) (url now : Str)
    (it : ServerItem) : OutputRecord :=
  if checkInvites ∧ it.invite ≠ [] then
    match fetch .HEAD it.invite with
    | .ok res =>
      { item := it, invite_status := some res.status, invite_final_url := some res.url
        invite_error := none, source_page := url, extracted_at := now }
    | .error message =>
      { item := it, invite_status := none, invite_final_url := none
        invite_error := some message, source_page := url, extracted_at := now }
  else
    { item := it, invite_status := none, invite_final_url := none, invite_error := none
      source_page := url, extracted_at := now }

/-- The function `playwrightHandler` (lines 161-237), without the wait for network idle,
the call of `enqueueLinks` and the log lines; `doc` is the rendered document and `baseURI`
its base URL. -/
def playwrightHandler (P : Platform) (fetch : Fetch) (clock : Nat → Str)
    (checkInvites : Bool) (request : Request) (baseURI : Str) (doc : Nodes) : HandlerRun :=
  let url := match request.loadedUrl with
    | some u => u
    | none => request.url
  let items := pageEvaluate P baseURI doc
  let records := annotateAll (playwrightAnnotate fetch checkInvites url) clock 0 items
  { pushed := records, snapshot := some (snapshotKey P url, records),
    queried := [containerSelector], thrown := none }

/-! ## A sample platform

Plain instances of the platform services, used to run the pipelines on sample pages. They
cover lower-case `http` and `https` URLs of the shape `scheme://host/path`, ASCII text,
and pages of HTML elements without style sheets (where the rendered text of an inline
element with a single text node is that text). -/

/-- Splits `scheme://rest` for the schemes `http` and `https`. -/
def sampleAfterScheme (s : Str) : Option (Str × Str) :=
  if startsWith s "https://".toList then some ("https://".toList, s.drop 8)
  else if startsWith s "http://".toList then some ("http://".toList, s.drop 7)
  else none

/-- End of the host part of a URL. -/
def isHostEnd (c : Char) : Bool := c == '/' || c == '?' || c == '#'

/-- Sample parser of absolute URLs. -/
def sampleParseAbsolute (s : Str) : Option ParsedUrl :=
  match sampleAfterScheme s with
  | none => none
  | some (scheme, rest) =>
    let host := rest.takeWhile (fun c => !isHostEnd c)
    if host = [] then none
    else
      let tail := rest.dropWhile (fun c => !isHostEnd c)
      some { href := scheme ++ host ++ (if tail = [] then ['/'] else tail), host := host }

/-- Sample `URL` constructor: absolute inputs, and inputs starting with one slash against
an absolute base. -/
def sampleParseUrl (input : Str) (base : Option Str) : Option ParsedUrl :=
  match sampleParseAbsolute input with
  | some u => some u
  | none =>
    match base with
    | none => none
    | some b =>
      match sampleAfterScheme b, sampleParseAbsolute b with
      | some (scheme, _), some ub =>
        if startsWith input ['/'] ∧ ¬ startsWith input ['/', '/'] = true then
          some { href := scheme ++ ub.host ++ input, host := ub.host }
        else none
      | _, _ => none

/-- Hexadecimal digit, upper case. -/
def hexDigit (n : Nat) : Char :=
  if n < 10 then Char.ofNat (48 + n) else Char.ofNat (55 + n)

/-- Characters that `encodeURIComponent` leaves as they are: letters, digits and
`- _ . ! ~ * ( )` and the apostrophe. -/
def isUnescaped (c : Char) : Bool :=
  c.isAlphanum || [45, 95, 46, 33, 126, 42, 39, 40, 41].contains c.toNat

/-- Sample `encodeURIComponent` for ASCII text. -/
def sampleEncode (s : Str) : Str :=
  s.flatMap (fun c =>
    if isUnescaped c then [c] else ['%', hexDigit (c.toNat / 16 % 16), hexDigit (c.toNat % 16)])

/-- Sample platform. -/
def samplePlatform : Platform :=
  { parseUrl := sampleParseUrl
    toLowerCase := fun s => s.map Char.toLower
    innerText := fun el => some el.children.textContent
    encodeURIComponent := sampleEncode }

/-- Attribute list with one attribute. -/
def attr1 (name value : String) : Attrs := [(name.toList, value.toList)]

/-- Wraps the content of a page body into `html`, `head` and `body` elements. -/
def htmlPage (body : Nodes) : Nodes :=
  .elem "html".toList [] (.elem "head".toList [] .nil (.elem "body".toList [] body .nil)) .nil

/-- Sample page: one `article` with the heading "Chat Hub", an invite anchor and a member
count. -/
def chatHubPage : Nodes :=
  htmlPage
    (.elem "article".toList []
      (.elem "h3".toList [] (.text "Chat Hub".toList .nil)
        (.elem "a".toList (attr1 "href" "https://discord.gg/abc123") (.text "Join".toList .nil)
          (.elem "span".toList (attr1 "class" "members") (.text "1,234 members".toList .nil)
            .nil)))
      .nil)

/-- Sample page: one `article` with a heading and no other content. -/
def headingOnlyPage : Nodes :=
  htmlPage (.elem "article".toList [] (.elem "h3".toList [] (.text "Chat Hub".toList .nil) .nil) .nil)

/-- Sample page: one `article` with a heading, an empty tag element and a tag "gaming". -/
def emptyTagPage : Nodes :=
  htmlPage
    (.elem "article".toList []
      (.elem "h3".toList [] (.text "Chat Hub".toList .nil)
        (.elem "span".toList (attr1 "class" "tag") .nil
          (.elem "span".toList (attr1 "class" "tag") (.text "gaming".toList .nil) .nil)))
      .nil)

/-- Sample seed request for a page URL. -/
def pageRequest (url : String) : Request :=
  { url := url.toList, loadedUrl := none, startHost := none }

/-- Sample clock: every reading is the same instant. -/
def sampleClock : Nat → Str := fun _ => "2024-01-01T00:00:00.000Z".toList

/-- Sample `fetch`: every request is answered with status 200 at the requested URL. -/
def fetchOk : Fetch := fun _ url => .ok ⟨200, url⟩

/-- Sample `fetch`: `HEAD` is answered with 404, `GET` with 200 at the URL `final`. -/
def fetchHeadRefused (final : Str) : Fetch := fun m url =>
  match m with
  | .HEAD => .ok ⟨404, url⟩
  | .GET => .ok ⟨200, final⟩

/-- The records a handler run stored in the page snapshot. -/
def HandlerRun.stored (run : HandlerRun) : List OutputRecord :=
  match run.snapshot with
  | some (_, records) => records
  | none => []

/-- Sample page URL. -/
def sampleUrl : Str := "https://a.example/servers".toList

/-- The item expected from the sample page `chatHubPage`. -/
def chatHubItem : ServerItem :=
  { server_name := "Chat Hub".toList, invite := "https://discord.gg/abc123".toList
    members_count := "1234".toList, online_count := [], tags := [], short_description := []
    source_url := "https://discord.gg/abc123".toList }

/-- The record expected from the sample page `chatHubPage` with invite validation. -/
def chatHubRecord : OutputRecord :=
  { item := chatHubItem, invite_status := some 200
    invite_final_url := some "https://discord.gg/abc123".toList, invite_error := none
    source_page := sampleUrl, extracted_at := sampleClock 0 }

/-- Sample page of a crawl rooted at `sampleUrl`, one hop from the seed, loaded after a
redirect to another host. -/
def sampleHopRequest : Request :=
  (candidateRequest "https://a.example/servers/gaming".toList).load
    (some "https://cdn.example/servers/gaming".toList)

/-- Sample invite URL. -/
def sampleInvite : Str := "https://discord.gg/abc123".toList

/-- Sample card: a `div` with class `card` whose only anchor has the relative href
`/go/discord.gg/abc123`. -/
def relativeInviteCard : Element :=
  { tag := "div".toList, attrs := attr1 "class" "card"
    children := .elem "a".toList (attr1 "href" "/go/discord.gg/abc123")
      (.text "Join".toList .nil) .nil
    ancestors := [⟨"body".toList, []⟩, ⟨"html".toList, []⟩] }

/-- Sample card: a `div` with class `server-card` that holds a heading, two member counts
and an online count without a digit. -/
def countsCard : Element :=
  { tag := "div".toList, attrs := attr1 "class" "server-card"
    children :=
      .elem "h3".toList [] (.text "Chat Hub".toList .nil)
        (.elem "span".toList (attr1 "class" "members") (.text " 1,234 members ".toList .nil)
          (.elem "span".toList (attr1 "class" "members") (.text "99".toList .nil)
            (.elem "span".toList (attr1 "class" "online") (.text "many online".toList .nil)
              .nil)))
    ancestors := [⟨"body".toList, []⟩, ⟨"html".toList, []⟩] }

/-- The object built in the page for the sample card `countsCard`. -/
def countsItem : ServerItem :=
  { server_name := "Chat Hub".toList, invite := [], members_count := "1234".toList
    online_count := [], tags := [], short_description := [], source_url := [] }

/-- The `article` of the sample page `emptyTagPage`. -/
def emptyTagCard : Element :=
  { tag := "article".toList, attrs := []
    children :=
      .elem "h3".toList [] (.text "Chat Hub".toList .nil)
        (.elem "span".toList (attr1 "class" "tag") .nil
          (.elem "span".toList (attr1 "class" "tag") (.text "gaming".toList .nil) .nil))
    ancestors := [⟨"body".toList, []⟩, ⟨"html".toList, []⟩] }

/-- The object built in the page for the sample card `emptyTagCard`. -/
def emptyTagItem : ServerItem :=
  { server_name := "Chat Hub".toList, invite := [], members_count := []
    online_count := [], tags := [[], "gaming".toList], short_description := []
    source_url := [] }

/-- The digit characters of a text, in their order: what the spec calls the text "with all
non-digit characters stripped". Stated with the order of characters, apart from the
extractors. -/
def specDigits (text : Str) : Str :=
  text.filter (fun c => decide ('0' ≤ c ∧ c ≤ '9'))

/-- The count field `value` against the text of the first matching element (`none`: no
element matches), in the words of the spec: the digits of that text, digits only, and the
empty string when nothing matches or the text has no digit. -/
def IsCountOf (text : Option Str) (value : Str) : Prop :=
  match text with
  | none => value = []
  | some t =>
    value = specDigits t ∧ (∀ c ∈ value, '0' ≤ c ∧ c ≤ '9') ∧
      ((∀ c ∈ t, ¬ ('0' ≤ c ∧ c ≤ '9')) → value = [])

/-- Sample page without any container element. -/
def plainPage : Nodes :=
  htmlPage (.elem "div".toList [] (.text "No servers listed.".toList .nil) .nil)

/-- A simple selector is clean when its class name (if it has one) contains no white
space. -/
def Simple.clean : Simple → Bool
  | .cls name => name.all (fun c => !isJsWhitespace c)
  | _ => true

/-- A selector list made of clean simple selectors. -/
def cleanSelector (sel : SelectorList) : Bool :=
  sel.all (fun c => c.all (fun cp => cp.all Simple.clean))

/-! ## Exceptions raised by the static extractor -/

/-- The identifier `server_name` has no binding in `parseServerCardCheerio`. -/
theorem lookup_server_name :
    lookupIdentifier parseServerCardScope "server_name" =
      .error (.referenceError "server_name") := by
  rfl

/-- The identifier `$` has no binding in `parseServerCardCheerio`. -/
theorem lookup_dollar :
    lookupIdentifier parseServerCardScope "$" = .error (.referenceError "$") := by
  rfl

/-- The anchor scan ends with the exception of its callback, or with no anchor at all. -/
theorem filterE_inviteCallback (l : List Element) :
    filterE parseServerCardCheerio.inviteCallback l = .error (.referenceError "$") ∨
      (l = [] ∧ filterE parseServerCardCheerio.inviteCallback l = .ok []) := by
  cases l with
  | nil => right; exact ⟨rfl, rfl⟩
  | cons x xs =>
    left
    simp [filterE, parseServerCardCheerio.inviteCallback, lookup_dollar]

/-- The tag list ends with the exception of its callback, or is empty. -/
theorem mapE_tagCallback (l : List Element) :
    mapE parseServerCardCheerio.tagCallback l = .error (.referenceError "$") ∨
      (l = [] ∧ mapE parseServerCardCheerio.tagCallback l = .ok []) := by
  cases l with
  | nil => right; exact ⟨rfl, rfl⟩
  | cons x xs =>
    left
    simp [mapE, parseServerCardCheerio.tagCallback, lookup_dollar]

/-- The invite lookup returns a string or raises the `ReferenceError` for `$`. -/
theorem invite_error (card : Element) (e : JsError)
    (h : parseServerCardCheerio.invite card = .error e) : e = .referenceError "$" := by
  unfold parseServerCardCheerio.invite at h
  simp only at h
  split at h
  · split at h
    · rcases filterE_inviteCallback (find card anchorSelector) with hf | ⟨_, hf⟩
      · rw [hf] at h
        simp at h
        exact h.symm
      · rw [hf] at h
        simp at h
    · simp at h
  · simp at h

/-- Every call of the static extractor ends with a `ReferenceError`. -/
theorem parse_raises (P : Platform) (card : Element) (baseUrl : Str) :
    parseServerCardCheerio P card baseUrl = .error (.referenceError "$") ∨
      parseServerCardCheerio P card baseUrl = .error (.referenceError "server_name") := by
  unfold parseServerCardCheerio
  simp only
  cases hi : parseServerCardCheerio.invite card with
  | error e =>
    left
    rw [invite_error card e hi]
  | ok invite =>
    simp only
    rcases mapE_tagCallback (find card tagListSelector) with ht | ⟨_, ht⟩
    · left
      simp [parseServerCardCheerio.tags, ht]
    · right
      simp [parseServerCardCheerio.tags, ht, lookup_server_name]

/-- The static extractor never returns an item. -/
theorem parse_not_ok (P : Platform) (card : Element) (baseUrl : Str) (item : ServerItem) :
    parseServerCardCheerio P card baseUrl ≠ .ok item := by
  intro h
  rcases parse_raises P card baseUrl with h1 | h1 <;> rw [h1] at h <;> cases h

/-- The card loop ends with an exception as soon as there is a card. -/
theorem eachCard_raises (P : Platform) (url : Str) (el : Element) (rest : List Element)
    (items : List ServerItem) :
    ∃ e, eachCard (fun c => parseServerCardCheerio P c url) (el :: rest) items = .error e := by
  rcases parse_raises P el url with h | h
  · exact ⟨.referenceError "$", by simp [eachCard, h]⟩
  · exact ⟨.referenceError "server_name", by simp [eachCard, h]⟩

/-- The guard of the card loop: whatever the extractor, every item of the resulting array
that was not there before has a non-empty name or a non-empty invite. -/
theorem eachCard_guard (parse : Element → Except JsError ServerItem) (cards : List Element) :
    ∀ (items out : List ServerItem),
      (∀ it ∈ items, it.server_name ≠ [] ∨ it.invite ≠ []) →
      eachCard parse cards items = .ok out →
      ∀ it ∈ out, it.server_name ≠ [] ∨ it.invite ≠ [] := by
  induction cards with
  | nil =>
    intro items out hin h
    simp [eachCard] at h
    subst h
    exact hin
  | cons el rest ih =>
    intro items out hin h
    unfold eachCard at h
    cases hp : parse el with
    | error e => simp [hp] at h
    | ok item =>
      simp only [hp] at h
      split at h
      · rename_i hg
        refine ih (items ++ [item]) out ?_ h
        intro it hit
        rcases List.mem_append.mp hit with h1 | h1
        · exact hin it h1
        · simp at h1
          subst h1
          exact hg
      · exact ih items out hin h

/-! ## Records handed to the result sink -/

/-- The annotation loop keeps the extracted items. -/
theorem annotateAll_item (annotate : Str → ServerItem → OutputRecord) (clock : Nat → Str)
    (hitem : ∀ now it, (annotate now it).item = it) (items : List ServerItem) :
    ∀ (k : Nat) (r : OutputRecord), r ∈ annotateAll annotate clock k items → r.item ∈ items := by
  induction items with
  | nil =>
    intro k r h
    simp [annotateAll] at h
  | cons it rest ih =>
    intro k r h
    simp only [annotateAll, List.mem_cons] at h
    rcases h with h | h
    · subst h
      rw [hitem]
      exact List.mem_cons_self _ _
    · exact List.mem_cons_of_mem _ (ih (k + 1) r h)

/-- The annotation of the static handler keeps the extracted item. -/
theorem cheerioAnnotate_item (fetch : Fetch) (checkInvites : Bool) (url now : Str)
    (it : ServerItem) : (cheerioAnnotate fetch checkInvites url now it).item = it := by
  unfold cheerioAnnotate
  split <;> rfl

/-- The annotation of the rendered handler keeps the extracted item. -/
theorem playwrightAnnotate_item (fetch : Fetch) (checkInvites : Bool) (url now : Str)
    (it : ServerItem) : (playwrightAnnotate fetch checkInvites url now it).item = it := by
  unfold playwrightAnnotate
  split
  · split <;> rfl
  · rfl

/-- Every item of the array built by the static handler passed the guard of the card loop. -/
theorem cheerioExtract_guard (P : Platform) (doc : Nodes) (url : Str)
    (items : List ServerItem) (h : (cheerioExtract P doc url).items = .ok items) :
    ∀ it ∈ items, it.server_name ≠ [] ∨ it.invite ≠ [] := by
  unfold cheerioExtract at h
  cases hg : eachCard (fun el => parseServerCardCheerio P el url) (candidates P doc) [] with
  | error e => simp [hg] at h
  | ok generic =>
    have hgen := eachCard_guard _ _ [] generic (by simp) hg
    simp only [hg] at h
    split at h
    · exact eachCard_guard _ _ generic items hgen h
    · simp at h
      subst h
      exact hgen

/-- Every item of the array built in the page passed the test of line 200. -/
theorem pageEvaluate_guard (P : Platform) (baseURI : Str) (doc : Nodes) :
    ∀ it ∈ pageEvaluate P baseURI doc, it.server_name ≠ [] ∨ it.invite ≠ [] := by
  intro it hit
  unfold pageEvaluate at hit
  rcases List.mem_filterMap.mp hit with ⟨c, _, hc⟩
  cases hp : pageCard P baseURI c with
  | error e => simp [hp] at hc
  | ok item =>
    simp only [hp] at hc
    split at hc
    · rename_i hg
      simp at hc
      subst hc
      exact hg
    · simp at hc

/-- Records pushed or stored by the static handler carry an item of its array. -/
theorem cheerioHandler_records (P : Platform) (fetch : Fetch) (clock : Nat → Str)
    (checkInvites : Bool) (request : Request) (doc : Nodes) (r : OutputRecord)
    (h : r ∈ (cheerioHandler P fetch clock checkInvites request doc).pushed ∨
      r ∈ (cheerioHandler P fetch clock checkInvites request doc).stored) :
    r.item.server_name ≠ [] ∨ r.item.invite ≠ [] := by
  unfold cheerioHandler at h
  simp only at h
  split at h
  · simp [HandlerRun.stored] at h
  · rename_i items hitems
    simp only [HandlerRun.stored, or_self] at h
    exact cheerioExtract_guard P doc _ items hitems _
      (annotateAll_item _ clock (cheerioAnnotate_item fetch checkInvites _) items 0 r h)

/-- Records pushed or stored by the rendered handler carry an item built in the page. -/
theorem playwrightHandler_records (P : Platform) (fetch : Fetch) (clock : Nat → Str)
    (checkInvites : Bool) (request : Request) (baseURI : Str) (doc : Nodes) (r : OutputRecord)
    (h : r ∈ (playwrightHandler P fetch clock checkInvites request baseURI doc).pushed ∨
      r ∈ (playwrightHandler P fetch clock checkInvites request baseURI doc).stored) :
    r.item.server_name ≠ [] ∨ r.item.invite ≠ [] := by
  unfold playwrightHandler at h
  simp only [HandlerRun.stored, or_self] at h
  exact pageEvaluate_guard P baseURI doc _
    (annotateAll_item _ clock (playwrightAnnotate_item fetch checkInvites _) _ 0 r h)

/-- Claim C1: every record that `cheerioHandler` or `playwrightHandler` passes to
`dataset.pushData`, or stores in the page snapshot, has a non-empty `server_name` or a
non-empty `invite`, for every document, request and configuration. -/
theorem emitted_record_has_name_or_invite (P : Platform) (fetch : Fetch) (clock : Nat → Str)
    (checkInvites : Bool) (request : Request) (baseURI : Str) (doc rendered : Nodes)
    (r : OutputRecord)
    (h : (r ∈ (cheerioHandler P fetch clock checkInvites request doc).pushed ∨
        r ∈ (cheerioHandler P fetch clock checkInvites request doc).stored) ∨
      (r ∈ (playwrightHandler P fetch clock checkInvites request baseURI rendered).pushed ∨
        r ∈ (playwrightHandler P fetch clock checkInvites request baseURI rendered).stored)) :
    r.item.server_name ≠ [] ∨ r.item.invite ≠ [] := by
  rcases h with h | h
  · exact cheerioHandler_records P fetch clock checkInvites request doc r h
  · exact playwrightHandler_records P fetch clock checkInvites request baseURI rendered r h

/-- On the sample page the rendered handler pushes the record `chatHubRecord`, which has a
name and an invite. -/
theorem emitted_record_has_name_or_invite_witness :
    chatHubRecord ∈ (playwrightHandler samplePlatform fetchOk sampleClock true
        (pageRequest "https://a.example/servers") sampleUrl chatHubPage).pushed ∧
      (chatHubRecord.item.server_name ≠ [] ∨ chatHubRecord.item.invite ≠ []) :=
  ⟨by decide,
    emitted_record_has_name_or_invite samplePlatform fetchOk sampleClock true
      (pageRequest "https://a.example/servers") sampleUrl chatHubPage chatHubPage chatHubRecord
      (Or.inr (Or.inl (by decide)))⟩

/-! ## The fallback pass -/

/-- With a candidate in the generic pass, extraction ends in the generic pass. -/
theorem cheerioExtract_of_candidates (P : Platform) (doc : Nodes) (url : Str)
    (h : candidates P doc ≠ []) :
    ∃ e, (cheerioExtract P doc url).queried = [genericSelector] ∧
      (cheerioExtract P doc url).items = .error e := by
  cases hc : candidates P doc with
  | nil => exact absurd hc h
  | cons el rest =>
    rcases eachCard_raises P url el rest [] with ⟨e, he⟩
    refine ⟨e, ?_, ?_⟩ <;> simp [cheerioExtract, hc, he]

/-- Claim C3: on every document for which the generic pass of `cheerioHandler` returns at
least one candidate element, the handler evaluates the generic selector only: the
fallback selector `.serverCard, .server-card` is not evaluated, and no record reaches the
dataset through it (the handler ends while parsing the first candidate and pushes no
record at all). -/
theorem fallback_skipped_when_candidates (P : Platform) (fetch : Fetch) (clock : Nat → Str)
    (checkInvites : Bool) (request : Request) (doc : Nodes)
    (h : candidates P doc ≠ []) :
    (cheerioHandler P fetch clock checkInvites request doc).queried = [genericSelector] ∧
      fallbackSelector ∉ (cheerioHandler P fetch clock checkInvites request doc).queried ∧
      (cheerioHandler P fetch clock checkInvites request doc).pushed = [] := by
  have hq : ∀ url, ∃ e, (cheerioExtract P doc url).queried = [genericSelector] ∧
      (cheerioExtract P doc url).items = .error e :=
    fun url => cheerioExtract_of_candidates P doc url h
  unfold cheerioHandler
  simp only
  rcases hq (match request.loadedUrl with | some u => u | none => request.url) with ⟨e, h1, h2⟩
  rw [h2]
  simp only [h1]
  refine ⟨trivial, ?_, trivial⟩
  decide

/-- The sample page has a candidate in the generic pass, and the fallback selector is not
evaluated on it. -/
theorem fallback_skipped_when_candidates_witness :
    candidates samplePlatform chatHubPage ≠ [] ∧
      fallbackSelector ∉ (cheerioHandler samplePlatform fetchOk sampleClock false
        (pageRequest "https://a.example/servers") chatHubPage).queried :=
  ⟨by decide,
    (fallback_skipped_when_candidates samplePlatform fetchOk sampleClock false
      (pageRequest "https://a.example/servers") chatHubPage (by decide)).2.1⟩

/-- Without a candidate in the generic pass the fallback selector is evaluated. -/
theorem fallback_runs_without_candidates (P : Platform) (doc : Nodes) (url : Str)
    (h : candidates P doc = []) :
    (cheerioExtract P doc url).queried = [genericSelector, fallbackSelector] := by
  simp [cheerioExtract, h, eachCard]

/-! ## The static extractor raises -/

/-- Claim C7 (the code departs from it): `parseServerCardCheerio` returns no record for any
card and base URL; every call ends with a `ReferenceError`, for the identifier `$` used
in its callbacks or for the identifier `server_name` of its `return` statement. -/
theorem parseServerCardCheerio_always_raises (P : Platform) (card : Element) (baseUrl : Str) :
    (parseServerCardCheerio P card baseUrl = .error (.referenceError "$") ∨
      parseServerCardCheerio P card baseUrl = .error (.referenceError "server_name")) ∧
      ∀ item, parseServerCardCheerio P card baseUrl ≠ .ok item :=
  ⟨parse_raises P card baseUrl, parse_not_ok P card baseUrl⟩

/-- Claim C8 (the code departs from it): on the sample page with one `article`, the heading
"Chat Hub", the anchor `https://discord.gg/abc123` and the text "1,234 members", the
static handler ends with the `ReferenceError` for `server_name` and pushes no record; the
rendered extraction of the same page yields the expected record. -/
theorem chatHub_static_handler_raises :
    (cheerioHandler samplePlatform fetchOk sampleClock false
        (pageRequest "https://a.example/servers") chatHubPage).thrown =
        some (.referenceError "server_name") ∧
      (cheerioHandler samplePlatform fetchOk sampleClock false
        (pageRequest "https://a.example/servers") chatHubPage).pushed = [] ∧
      pageEvaluate samplePlatform sampleUrl chatHubPage = [chatHubItem] := by
  refine ⟨by decide, by decide, by decide⟩

/-! ## Link scoping -/

/-- The scope host of the seed request is the host of the seed URL. -/
theorem scopeHost_start (P : Platform) (seed : Str) (u : ParsedUrl)
    (hseed : P.parseUrl seed none = some u) :
    scopeHost P (startRequest P seed) = some u.host := by
  simp only [startRequest, hseed, scopeHost]
  split
  · rfl
  · rfl

/-- The scope host does not depend on the URL the page was loaded from. -/
theorem scopeHost_load (P : Platform) (r : Request) (loaded : Option Str) :
    scopeHost P (r.load loaded) = scopeHost P r := rfl

/-- The scope host of a candidate that passed the transform is the scope host of the page
it was found on. -/
theorem scopeHost_hop (P : Platform) (page next : Request) (link : Str) (H : Str)
    (hpage : scopeHost P page = some H)
    (hstep : transformRequestFunction P true page (candidateRequest link) = some next) :
    scopeHost P next = some H := by
  simp only [transformRequestFunction, hpage, candidateRequest, if_true] at hstep
  cases hl : P.parseUrl link none with
  | none => simp [hl] at hstep
  | some v =>
    simp only [hl] at hstep
    split at hstep
    · simp at hstep
    · rename_i hhost
      simp at hstep
      subst hstep
      have hv : v.host = H := by
        by_contra hne
        exact hhost hne
      simp [scopeHost, hl, hv]

/-- On every page of a crawl the scope host is the host of the seed URL. -/
theorem scopeHost_chain (P : Platform) (seed : Str) (u : ParsedUrl)
    (hseed : P.parseUrl seed none = some u) (page : Request)
    (hchain : CrawlChain P seed page) : scopeHost P page = some u.host := by
  induction hchain with
  | start loaded =>
    rw [scopeHost_load]
    exact scopeHost_start P seed u hseed
  | hop page next link loaded _ hstep ih =>
    rw [scopeHost_load]
    exact scopeHost_hop P page next link u.host ih hstep

/-- Claim C4: with `followInternalOnly` enabled, on every page of a crawl whose seed URL
parses with host `H` (the seed itself, or a target reached through any number of accepted
candidates, which carry no `startHost`), the scoping transform accepts a discovered
candidate exactly when the candidate URL parses and its host equals `H`. -/
theorem scoping_accepts_iff_root_host (P : Platform) (seed : Str) (u : ParsedUrl)
    (hseed : P.parseUrl seed none = some u) (page : Request)
    (hchain : CrawlChain P seed page) (link : Str) :
    (transformRequestFunction P true page (candidateRequest link)).isSome = true ↔
      ∃ v, P.parseUrl link none = some v ∧ v.host = u.host := by
  have hpage := scopeHost_chain P seed u hseed page hchain
  simp only [transformRequestFunction, hpage, candidateRequest, if_true]
  cases hl : P.parseUrl link none with
  | none => simp
  | some v =>
    simp only
    by_cases hv : v.host = u.host
    · simp [hv]
    · simp [hv]

/-- A crawl rooted at `a.example`, one hop from the seed: a candidate on `a.example` with
another path is accepted, a candidate on `b.example` is not. -/
theorem scoping_accepts_iff_root_host_witness :
    samplePlatform.parseUrl sampleUrl none = some ⟨"https://a.example/servers".toList,
        "a.example".toList⟩ ∧
      CrawlChain samplePlatform sampleUrl sampleHopRequest ∧
      (transformRequestFunction samplePlatform true sampleHopRequest
        (candidateRequest "https://a.example/server/42".toList)).isSome = true ∧
      ¬ (transformRequestFunction samplePlatform true sampleHopRequest
        (candidateRequest "https://b.example/servers/gaming".toList)).isSome = true :=
  have hseed : samplePlatform.parseUrl sampleUrl none =
      some ⟨"https://a.example/servers".toList, "a.example".toList⟩ := by decide
  have hchain : CrawlChain samplePlatform sampleUrl sampleHopRequest :=
    CrawlChain.hop ((startRequest samplePlatform sampleUrl).load (some sampleUrl))
      (candidateRequest "https://a.example/servers/gaming".toList)
      "https://a.example/servers/gaming".toList
      (some "https://cdn.example/servers/gaming".toList) (CrawlChain.start (some sampleUrl))
      (by decide)
  ⟨hseed, hchain,
    (scoping_accepts_iff_root_host samplePlatform sampleUrl _ hseed sampleHopRequest hchain
      "https://a.example/server/42".toList).mpr
      ⟨⟨"https://a.example/server/42".toList, "a.example".toList⟩, by decide, by decide⟩,
    fun h =>
      absurd ((scoping_accepts_iff_root_host samplePlatform sampleUrl _ hseed sampleHopRequest
        hchain "https://b.example/servers/gaming".toList).mp h) (by
          rintro ⟨v, hv, hhost⟩
          have hb : samplePlatform.parseUrl "https://b.example/servers/gaming".toList none =
              some ⟨"https://b.example/servers/gaming".toList, "b.example".toList⟩ := by decide
          rw [hb] at hv
          cases hv
          revert hhost
          decide)⟩

/-! ## Invite validation -/

/-- Claim C5, as amended: when the `HEAD` request of `checkLink` is answered with a status
below 400, only that request is issued and the returned status is its status; when it is
answered with a status of 400 or more, exactly one `GET` follows it and, if the `GET` is
answered, the returned status is the status of the `GET` and the returned final URL is the
URL of the `GET` response or, when that URL is empty, the final URL kept from the `HEAD`
step. -/
theorem checkLink_two_step (fetch : Fetch) (url : Str) (res : Response)
    (hhead : fetch .HEAD url = .ok res) :
    if res.status < 400 then
      (checkLink fetch url).issued = [.HEAD] ∧
        (checkLink fetch url).result.status = some res.status
    else
      (checkLink fetch url).issued = [.HEAD, .GET] ∧
        (match fetch .GET url with
         | .ok res2 =>
           (checkLink fetch url).result.status = some res2.status ∧
             (checkLink fetch url).result.finalUrl =
               some (if res2.url ≠ [] then res2.url else jsOr res.url url)
         | .error _ => True) := by
  unfold checkLink
  simp only [hhead]
  by_cases hs : res.status < 400
  · have hge : ¬ res.status ≥ 400 := by omega
    simp [hs, hge]
  · have hge : res.status ≥ 400 := by omega
    simp only [hs, hge, if_true, if_false]
    cases hg : fetch .GET url with
    | error m => simp
    | ok res2 =>
      by_cases he : res2.url = []
      · simp [he, jsOr]
      · simp [he, jsOr]

/-- A `HEAD` answered with 404 is followed by one `GET`, whose status and URL are
returned. -/
theorem checkLink_two_step_witness :
    fetchHeadRefused "https://discord.com/invite/abc123".toList .HEAD sampleInvite =
        .ok ⟨404, sampleInvite⟩ ∧
      (checkLink (fetchHeadRefused "https://discord.com/invite/abc123".toList)
        sampleInvite).issued = [.HEAD, .GET] ∧
      (checkLink (fetchHeadRefused "https://discord.com/invite/abc123".toList)
        sampleInvite).result.status = some 200 :=
  have h := checkLink_two_step (fetchHeadRefused "https://discord.com/invite/abc123".toList)
    sampleInvite ⟨404, sampleInvite⟩ rfl
  ⟨rfl, h.1, h.2.1⟩

/-- Claim C5 fails as stated: a `GET` response with an empty URL is answered to a `HEAD`
refused with 404; the final URL that `checkLink` returns is the one kept from the `HEAD`
step, not the URL of the `GET` response. -/
theorem checkLink_final_url_not_from_get :
    fetchHeadRefused [] .HEAD sampleInvite = .ok ⟨404, sampleInvite⟩ ∧
      fetchHeadRefused [] .GET sampleInvite = .ok ⟨200, []⟩ ∧
      (checkLink (fetchHeadRefused []) sampleInvite).issued = [.HEAD, .GET] ∧
      (checkLink (fetchHeadRefused []) sampleInvite).result.finalUrl = some sampleInvite ∧
      (checkLink (fetchHeadRefused []) sampleInvite).result.finalUrl ≠ some [] := by
  refine ⟨rfl, rfl, by decide, by decide, by decide⟩

/-! ## Stored URLs -/

/-- Claim C6 (the code departs from it): for the sample card whose anchor has the relative
href `/go/discord.gg/abc123`, on the page `https://a.example/servers`, the extractor finds
the href as invite and computes the absolute URL `https://a.example/go/discord.gg/abc123`
for both `source_url` (line 72) and the `invite` property (line 76), but returns no
record: the call ends with the `ReferenceError` for `server_name` of line 75. -/
theorem relative_href_record_not_returned :
    parseServerCardCheerio samplePlatform relativeInviteCard sampleUrl =
        .error (.referenceError "server_name") ∧
      (∀ item, parseServerCardCheerio samplePlatform relativeInviteCard sampleUrl ≠ .ok item) ∧
      parseServerCardCheerio.invite relativeInviteCard = .ok "/go/discord.gg/abc123".toList ∧
      parseServerCardCheerio.inviteProperty samplePlatform sampleUrl
        "/go/discord.gg/abc123".toList = "https://a.example/go/discord.gg/abc123".toList ∧
      parseServerCardCheerio.source_url samplePlatform relativeInviteCard sampleUrl =
        "https://a.example/go/discord.gg/abc123".toList := by
  refine ⟨rfl, ?_, rfl, by decide, by decide⟩
  intro item h
  have he : parseServerCardCheerio samplePlatform relativeInviteCard sampleUrl =
      .error (.referenceError "server_name") := rfl
  rw [he] at h
  cases h

/-! ## Counts and tags -/

/-- White space is not a digit. -/
theorem whitespace_not_digit (c : Char) (h : isJsWhitespace c = true) :
    isDigitChar c = false := by
  simp only [isJsWhitespace, Bool.or_eq_true, beq_iff_eq, Bool.and_eq_true,
    decide_eq_true_eq] at h
  simp only [isDigitChar, Bool.and_eq_false_imp, decide_eq_true_eq, decide_eq_false_iff_not]
  omega

/-- Dropping leading white space keeps the digits. -/
theorem strip_dropWhile (s : Str) :
    stripNonDigits (s.dropWhile isJsWhitespace) = stripNonDigits s := by
  induction s with
  | nil => rfl
  | cons c cs ih =>
    by_cases hc : isJsWhitespace c = true
    · simp only [List.dropWhile_cons, hc, if_true, ih]
      simp [stripNonDigits, List.filter_cons, whitespace_not_digit c hc]
    · simp [List.dropWhile_cons, hc]

/-- Dropping trailing white space keeps the digits. -/
theorem strip_trimEnd (s : Str) : stripNonDigits (trimEnd s) = stripNonDigits s := by
  induction s with
  | nil => rfl
  | cons c cs ih =>
    unfold trimEnd
    cases ht : trimEnd cs with
    | nil =>
      rw [ht] at ih
      have hcs : stripNonDigits cs = [] := ih.symm
      by_cases hc : isJsWhitespace c = true
      · simp only [hc, if_true]
        simp only [stripNonDigits, List.filter_cons, whitespace_not_digit c hc] at hcs ⊢
        simpa using hcs.symm
      · simp only [hc, if_false]
        simp only [stripNonDigits] at hcs ⊢
        simp [List.filter_cons, hcs]
    | cons r rs =>
      rw [ht] at ih
      simp only [stripNonDigits, List.filter_cons] at ih ⊢
      rw [ih]

/-- Trimming keeps the digits. -/
theorem strip_jsTrim (s : Str) : stripNonDigits (jsTrim s) = stripNonDigits s := by
  unfold jsTrim
  rw [strip_trimEnd, strip_dropWhile]

/-- The stripped string consists of digits. -/
theorem strip_digits (s : Str) : ∀ ch ∈ stripNonDigits s, isDigitChar ch = true := by
  intro ch h
  exact (List.mem_filter.mp h).2

/-- The operator `x || ''` returns `x`. -/
theorem jsOr_empty (x : Str) : jsOr x [] = x := by
  unfold jsOr
  split
  · rename_i h
    exact h.symm
  · rfl

/-- The static `members_count` is the digits of the text of the first match. -/
theorem members_count_eq (card : Element) :
    parseServerCardCheerio.members_count card =
      stripNonDigits (firstText (find card membersSelector)) := by
  simp [parseServerCardCheerio.members_count, jsOr_empty, strip_jsTrim]

/-- The static `online_count` is the digits of the text of the first match. -/
theorem online_count_eq (card : Element) :
    parseServerCardCheerio.online_count card =
      stripNonDigits (firstText (find card onlineSelector)) := by
  simp [parseServerCardCheerio.online_count, jsOr_empty, strip_jsTrim]

/-- The digit test of the extractors is the test on the order of characters. -/
theorem isDigitChar_iff (c : Char) : isDigitChar c = true ↔ ('0' ≤ c ∧ c ≤ '9') := by
  simp only [isDigitChar, Bool.and_eq_true, decide_eq_true_eq, Char.le_def, Char.toNat,
    UInt32.le_def, Fin.le_def]
  rfl

/-- Stripping the non-digits gives the digits of the text. -/
theorem strip_eq_specDigits (t : Str) : stripNonDigits t = specDigits t := by
  unfold stripNonDigits specDigits
  apply List.filter_congr
  intro c _
  by_cases h : isDigitChar c = true
  · rw [h]
    exact (decide_eq_true ((isDigitChar_iff c).mp h)).symm
  · have hn : ¬ ('0' ≤ c ∧ c ≤ '9') := fun hc => h ((isDigitChar_iff c).mpr hc)
    simp only [Bool.not_eq_true] at h
    rw [h]
    exact (decide_eq_false hn).symm

/-- The stripped text is the count of that text. -/
theorem isCountOf_strip (t : Str) : IsCountOf (some t) (stripNonDigits t) := by
  refine ⟨strip_eq_specDigits t, ?_, ?_⟩
  · intro c hc
    exact (isDigitChar_iff c).mp (strip_digits t c hc)
  · intro hno
    unfold stripNonDigits
    rw [List.filter_eq_nil_iff]
    intro c hc hd
    exact hno c hc ((isDigitChar_iff c).mp hd)

/-- A text read in the page: nothing without an element, else the method applied to the
`innerText` of the element, which is defined. -/
theorem readText_ok (P : Platform) (el : Option Element) (f : Str → Str) (v : Str)
    (h : readText P el f = .ok v) :
    (el = none ∧ v = []) ∨ ∃ e text, el = some e ∧ P.innerText e = some text ∧ v = f text := by
  cases el with
  | none =>
    left
    simp only [readText, Except.ok.injEq] at h
    exact ⟨rfl, h.symm⟩
  | some e =>
    right
    unfold readText at h
    cases ht : P.innerText e with
    | none => simp [ht] at h
    | some text =>
      simp only [ht, Except.ok.injEq] at h
      exact ⟨e, text, rfl, ht, h.symm⟩

/-- The fields of an object built in the page are the texts read for it. -/
theorem pageCard_ok (P : Platform) (baseURI : Str) (c : Element) (item : ServerItem)
    (h : pageCard P baseURI c = .ok item) :
    readText P (querySelector c pageHeadingSelector) jsTrim = .ok item.server_name ∧
      readText P (querySelector c membersSelector) stripNonDigits = .ok item.members_count ∧
      readText P (querySelector c onlineSelector) stripNonDigits = .ok item.online_count ∧
      mapE (fun t => readText P (some t) jsTrim) (querySelectorAll c tagListSelector) =
        .ok item.tags ∧
      readText P (querySelector c descriptionSelector) jsTrim = .ok item.short_description := by
  unfold pageCard at h
  cases h1 : readText P (querySelector c pageHeadingSelector) jsTrim with
  | error e => simp [h1] at h
  | ok name =>
    cases h2 : readText P (querySelector c membersSelector) stripNonDigits with
    | error e => simp [h1, h2] at h
    | ok members =>
      cases h3 : readText P (querySelector c onlineSelector) stripNonDigits with
      | error e => simp [h1, h2, h3] at h
      | ok online =>
        cases h4 : mapE (fun t => readText P (some t) jsTrim)
            (querySelectorAll c tagListSelector) with
        | error e => simp [h1, h2, h3, h4] at h
        | ok tags =>
          cases h5 : readText P (querySelector c descriptionSelector) jsTrim with
          | error e => simp [h1, h2, h3, h4, h5] at h
          | ok desc =>
            simp only [h1, h2, h3, h4, h5, Except.ok.injEq] at h
            subst h
            exact ⟨rfl, rfl, rfl, rfl, rfl⟩

/-- A count read in the page is the count of the `innerText` of the first match. -/
theorem isCountOf_readText (P : Platform) (el : Option Element) (v : Str)
    (h : readText P el stripNonDigits = .ok v) : IsCountOf (el.bind P.innerText) v := by
  rcases readText_ok P el stripNonDigits v h with ⟨rfl, rfl⟩ | ⟨e, text, rfl, ht, rfl⟩
  · rfl
  · simp only [Option.bind, ht]
    exact isCountOf_strip text

/-- A count of the static extractor is the count of the text of the first match. -/
theorem isCountOf_firstText (sel : List Element) :
    IsCountOf (sel.head?.map (fun e => e.children.textContent))
      (stripNonDigits (firstText sel)) := by
  cases sel with
  | nil => rfl
  | cons e rest => exact isCountOf_strip e.children.textContent

/-- Claim C10: for every card, `members_count` and `online_count`, as computed by
`parseServerCardCheerio` (from the text of the first element that `find` returns for the
count selector) and as held by the object built in the page (from the `innerText` of the
element that `querySelector` returns), are the digit characters of that text in their
order: digits 0-9 only, and the empty string when no element matches or the text has no
digit. -/
theorem counts_are_digits_of_first_match (P : Platform) (baseURI : Str) (card : Element)
    (item : ServerItem) (hpage : pageCard P baseURI card = .ok item) :
    IsCountOf ((find card membersSelector).head?.map (fun e => e.children.textContent))
        (parseServerCardCheerio.members_count card) ∧
      IsCountOf ((find card onlineSelector).head?.map (fun e => e.children.textContent))
        (parseServerCardCheerio.online_count card) ∧
      IsCountOf ((querySelector card membersSelector).bind P.innerText) item.members_count ∧
      IsCountOf ((querySelector card onlineSelector).bind P.innerText) item.online_count := by
  have hp := pageCard_ok P baseURI card item hpage
  refine ⟨?_, ?_, isCountOf_readText P _ _ hp.2.1, isCountOf_readText P _ _ hp.2.2.1⟩
  · rw [members_count_eq]
    exact isCountOf_firstText _
  · rw [online_count_eq]
    exact isCountOf_firstText _

/-- On the sample card with the member counts " 1,234 members " and "99" and the online
count "many online", both pipelines give the member count "1234" and an empty online
count, which are the counts of the first matching texts. -/
theorem counts_are_digits_of_first_match_witness :
    pageCard samplePlatform sampleUrl countsCard = .ok countsItem ∧
      parseServerCardCheerio.members_count countsCard = "1234".toList ∧
      parseServerCardCheerio.online_count countsCard = [] ∧
      countsItem.members_count = "1234".toList ∧ countsItem.online_count = [] ∧
      (find countsCard membersSelector).head?.map (fun e => e.children.textContent) =
        some " 1,234 members ".toList ∧
      (querySelector countsCard onlineSelector).bind samplePlatform.innerText =
        some "many online".toList ∧
      (IsCountOf ((find countsCard membersSelector).head?.map
          (fun e => e.children.textContent)) (parseServerCardCheerio.members_count countsCard) ∧
        IsCountOf ((find countsCard onlineSelector).head?.map
          (fun e => e.children.textContent)) (parseServerCardCheerio.online_count countsCard) ∧
        IsCountOf ((querySelector countsCard membersSelector).bind samplePlatform.innerText)
          countsItem.members_count ∧
        IsCountOf ((querySelector countsCard onlineSelector).bind samplePlatform.innerText)
          countsItem.online_count) :=
  ⟨rfl, by decide, by decide, rfl, rfl, by decide, by decide,
    counts_are_digits_of_first_match samplePlatform sampleUrl countsCard countsItem rfl⟩

/-- A string without trailing white space removed is empty or keeps its first character. -/
theorem trimEnd_cons (c : Char) (cs : Str) :
    trimEnd (c :: cs) = [] ∨ ∃ t, trimEnd (c :: cs) = c :: t := by
  unfold trimEnd
  cases trimEnd cs with
  | nil =>
    by_cases hc : isJsWhitespace c = true
    · left; simp [hc]
    · right; exact ⟨[], by simp [hc]⟩
  | cons r rs => right; exact ⟨r :: rs, rfl⟩

/-- Removing trailing white space twice is removing it once. -/
theorem trimEnd_idem (s : Str) : trimEnd (trimEnd s) = trimEnd s := by
  induction s with
  | nil => rfl
  | cons c cs ih =>
    cases ht : trimEnd cs with
    | nil =>
      by_cases hc : isJsWhitespace c = true
      · simp [trimEnd, ht, hc]
      · simp [trimEnd, ht, hc]
    | cons r rs =>
      rw [ht] at ih
      have h1 : trimEnd (c :: cs) = c :: r :: rs := by simp [trimEnd, ht]
      rw [h1]
      have h2 : trimEnd (c :: r :: rs) =
          (match trimEnd (r :: rs) with
           | [] => if isJsWhitespace c then [] else [c]
           | x :: xs => c :: x :: xs) := rfl
      rw [h2, ih]

/-- After leading white space is dropped, the first character is not white space. -/
theorem dropWhile_head (s : Str) :
    s.dropWhile isJsWhitespace = [] ∨
      ∃ c cs, s.dropWhile isJsWhitespace = c :: cs ∧ isJsWhitespace c = false := by
  induction s with
  | nil => left; rfl
  | cons c cs ih =>
    by_cases hc : isJsWhitespace c = true
    · simpa [List.dropWhile_cons, hc] using ih
    · right
      exact ⟨c, cs, by simp [List.dropWhile_cons, hc], by simpa using hc⟩

/-- A trimmed string is empty or starts with a character that is not white space. -/
theorem jsTrim_head (s : Str) :
    jsTrim s = [] ∨ ∃ c t, jsTrim s = c :: t ∧ isJsWhitespace c = false := by
  unfold jsTrim
  rcases dropWhile_head s with h | ⟨c, cs, h, hc⟩
  · left; rw [h]; rfl
  · rw [h]
    rcases trimEnd_cons c cs with h1 | ⟨t, h1⟩
    · left; exact h1
    · right; exact ⟨c, t, h1, hc⟩

/-- Trimming twice is trimming once. -/
theorem jsTrim_idem (s : Str) : jsTrim (jsTrim s) = jsTrim s := by
  rcases jsTrim_head s with h | ⟨c, t, h, hc⟩
  · rw [h]; rfl
  · have hd : (jsTrim s).dropWhile isJsWhitespace = jsTrim s := by
      rw [h]
      simp [List.dropWhile_cons, hc]
    have ht : trimEnd (jsTrim s) = jsTrim s := by
      unfold jsTrim
      exact trimEnd_idem _
    have key : jsTrim (jsTrim s) = trimEnd ((jsTrim s).dropWhile isJsWhitespace) := rfl
    rw [key, hd, ht]

/-- The tag list read in the page has one entry for every element, in order: the trimmed
`innerText` of the element. -/
theorem mapE_readText (P : Platform) (l : List Element) :
    ∀ ys : List Str, mapE (fun t => readText P (some t) jsTrim) l = .ok ys →
      l.map (fun t => (P.innerText t).map jsTrim) = ys.map some := by
  induction l with
  | nil =>
    intro ys h
    simp only [mapE, Except.ok.injEq] at h
    subst h
    rfl
  | cons x xs ih =>
    intro ys h
    unfold mapE at h
    cases hx : readText P (some x) jsTrim with
    | error e => simp [hx] at h
    | ok y =>
      cases hxs : mapE (fun t => readText P (some t) jsTrim) xs with
      | error e => simp [hx, hxs] at h
      | ok rest =>
        simp only [hx, hxs, Except.ok.injEq] at h
        subst h
        rcases readText_ok P (some x) jsTrim y hx with ⟨hn, _⟩ | ⟨e, text, he, ht, hy⟩
        · cases hn
        · cases he
          simp only [List.map_cons, ht, Option.map_some', hy, ih rest hxs]

/-- Claim C9, as amended: in the extraction in the page, the `tags` of the object built for
a container holds one entry for every element matching the tag-list selector, in document
order, namely the trimmed rendered text of the element; an entry has no surrounding white
space and is never a non-empty string of white space only (an entry may be the empty
string). -/
theorem page_tags_trimmed (P : Platform) (baseURI : Str) (c : Element) (item : ServerItem)
    (hpage : pageCard P baseURI c = .ok item) :
    (querySelectorAll c tagListSelector).map (fun t => (P.innerText t).map jsTrim) =
        item.tags.map some ∧
      ∀ t ∈ item.tags, jsTrim t = t ∧ (t = [] ∨ t.all isJsWhitespace = false) := by
  have hmap := mapE_readText P _ item.tags (pageCard_ok P baseURI c item hpage).2.2.2.1
  refine ⟨hmap, ?_⟩
  intro t ht
  have hsome : some t ∈ item.tags.map some := List.mem_map.mpr ⟨t, ht, rfl⟩
  rw [← hmap] at hsome
  rcases List.mem_map.mp hsome with ⟨el, _, hel⟩
  cases htext : P.innerText el with
  | none => simp [htext] at hel
  | some text =>
    simp only [htext, Option.map_some', Option.some.injEq] at hel
    subst hel
    refine ⟨jsTrim_idem _, ?_⟩
    rcases jsTrim_head text with h | ⟨ch, tl, h, hc⟩
    · left; exact h
    · right
      rw [h]
      simp [hc]

/-- On the sample card with an empty tag element and the tag "gaming", the object built in
the page has the tags `''` and `gaming`, one for each tag element. -/
theorem page_tags_trimmed_witness :
    pageCard samplePlatform sampleUrl emptyTagCard = .ok emptyTagItem ∧
      emptyTagItem.tags = [[], "gaming".toList] ∧
      ((querySelectorAll emptyTagCard tagListSelector).map
          (fun t => (samplePlatform.innerText t).map jsTrim) = emptyTagItem.tags.map some ∧
        ∀ t ∈ emptyTagItem.tags, jsTrim t = t ∧ (t = [] ∨ t.all isJsWhitespace = false)) :=
  ⟨rfl, rfl, page_tags_trimmed samplePlatform sampleUrl emptyTagCard emptyTagItem rfl⟩

/-- Claim C9 fails as stated: on the sample page whose card has an empty tag element
followed by the tag "gaming", the extraction in the page yields one record, and its `tags`
starts with the empty string. -/
theorem page_tags_keep_empty_entry :
    (pageEvaluate samplePlatform sampleUrl emptyTagPage).map (fun it => it.tags) =
      [[[], "gaming".toList]] := by
  decide

/-! ## Static and rendered extraction compared -/

/-- ASCII white space is white space of regular expressions. -/
theorem htmlSpace_jsWhitespace (c : Char) (h : isHtmlSpace c = true) :
    isJsWhitespace c = true := by
  simp only [isHtmlSpace, Bool.or_eq_true, beq_iff_eq] at h
  simp only [isJsWhitespace, Bool.or_eq_true, beq_iff_eq, Bool.and_eq_true, decide_eq_true_eq]
  omega

/-- A class token for finer separators that contains no coarser separator is also a token
for the coarser separators. -/
theorem classTokens_coarser (sep1 sep2 : Char → Bool)
    (hsub : ∀ c, sep1 c = true → sep2 c = true) (name : Str)
    (hname : ∀ c ∈ name, sep2 c = false) (s : Str) :
    ∀ cur1 cur2 : Str, (cur1 = cur2 ∨ ∃ c ∈ cur1, sep2 c = true) →
      name ∈ classTokensAux sep1 s cur1 → name ∈ classTokensAux sep2 s cur2 := by
  have hbad : ∀ cur1 : Str, (∃ c ∈ cur1, sep2 c = true) → name ≠ cur1.reverse := by
    rintro cur1 ⟨c, hc, hsep⟩ rfl
    have := hname c (List.mem_reverse.mpr hc)
    rw [hsep] at this
    cases this
  induction s with
  | nil =>
    intro cur1 cur2 hcur hmem
    rcases hcur with rfl | hcur
    · exact hmem
    · simp only [classTokensAux] at hmem
      split at hmem
      · simp at hmem
      · simp only [List.mem_singleton] at hmem
        exact absurd hmem (hbad cur1 hcur)
  | cons c cs ih =>
    intro cur1 cur2 hcur hmem
    simp only [classTokensAux] at hmem ⊢
    by_cases h1 : sep1 c = true
    · have h2 : sep2 c = true := hsub c h1
      simp only [h1, h2, if_true] at hmem ⊢
      have hrest : name ∈ classTokensAux sep1 cs [] →
          name ∈ (if cur2 = [] then classTokensAux sep2 cs []
            else cur2.reverse :: classTokensAux sep2 cs []) := by
        intro hm
        have := ih [] [] (Or.inl rfl) hm
        split
        · exact this
        · exact List.mem_cons_of_mem _ this
      split at hmem
      · exact hrest hmem
      · rcases List.mem_cons.mp hmem with hm | hm
        · rcases hcur with rfl | hcur
          · rename_i hne
            simp only [hne, if_false]
            exact hm ▸ List.mem_cons_self _ _
          · exact absurd hm (hbad cur1 hcur)
        · exact hrest hm
    · simp only [h1] at hmem
      by_cases h2 : sep2 c = true
      · simp only [h2, if_true]
        have := ih (c :: cur1) [] (Or.inr ⟨c, List.mem_cons_self _ _, h2⟩) (by simpa using hmem)
        split
        · exact this
        · exact List.mem_cons_of_mem _ this
      · simp only [h2]
        refine ih (c :: cur1) (c :: cur2) ?_ (by simpa using hmem)
        rcases hcur with rfl | ⟨d, hd, hsep⟩
        · exact Or.inl rfl
        · exact Or.inr ⟨d, List.mem_cons_of_mem _ hd, hsep⟩

/-- A clean simple selector that matches in the page matches in the static parse. -/
theorem matchSimple_static (t : Tagged) (sim : Simple) (hclean : sim.clean = true)
    (h : matchSimple isHtmlSpace t sim = true) : matchSimple isJsWhitespace t sim = true := by
  cases sim with
  | tag name => exact h
  | hasAttr name => exact h
  | attrContains name sub => exact h
  | cls name =>
    simp only [matchSimple, List.contains, List.elem_iff, classList] at h ⊢
    simp only [Simple.clean, List.all_eq_true, Bool.not_eq_true'] at hclean
    exact classTokens_coarser isHtmlSpace isJsWhitespace htmlSpace_jsWhitespace name hclean _
      [] [] (Or.inl rfl) h

/-- A clean compound selector that matches in the page matches in the static parse. -/
theorem matchCompound_static (cp : Compound) (t : Tagged)
    (hclean : cp.all Simple.clean = true)
    (h : matchCompound isHtmlSpace cp t = true) : matchCompound isJsWhitespace cp t = true := by
  simp only [matchCompound, List.all_eq_true] at h hclean ⊢
  intro sim hsim
  exact matchSimple_static t sim (hclean sim hsim) (h sim hsim)

/-- Clean ancestor compounds that match in the page match in the static parse. -/
theorem matchAncestors_static (cs : List Compound)
    (hclean : ∀ cp ∈ cs, cp.all Simple.clean = true) (anc : List Tagged) :
    matchAncestors isHtmlSpace cs anc = true → matchAncestors isJsWhitespace cs anc = true := by
  induction anc generalizing cs with
  | nil =>
    cases cs with
    | nil => intro _; rfl
    | cons c rest => intro h; simp [matchAncestors] at h
  | cons a as ih =>
    cases cs with
    | nil => intro _; simp [matchAncestors]
    | cons c rest =>
      intro h
      simp only [matchAncestors, Bool.or_eq_true, Bool.and_eq_true] at h ⊢
      rcases h with ⟨h1, h2⟩ | h
      · left
        exact ⟨matchCompound_static c a (hclean c (List.mem_cons_self _ _)) h1,
          ih rest (fun cp hcp => hclean cp (List.mem_cons_of_mem _ hcp)) h2⟩
      · right
        exact ih (c :: rest) hclean h

/-- A clean selector list that matches in the page matches in the static parse. -/
theorem matchesSelector_static (sel : SelectorList) (hclean : cleanSelector sel = true)
    (e : Element) (h : matchesSelector isHtmlSpace sel e = true) :
    matchesSelector isJsWhitespace sel e = true := by
  simp only [matchesSelector, List.any_eq_true] at h ⊢
  simp only [cleanSelector, List.all_eq_true] at hclean
  rcases h with ⟨c, hc, hm⟩
  refine ⟨c, hc, ?_⟩
  have hcl : ∀ cp ∈ c.reverse, cp.all Simple.clean = true := by
    intro cp hcp
    have := hclean c hc cp (List.mem_reverse.mp hcp)
    simpa [List.all_eq_true] using this
  unfold matchComplex at hm ⊢
  cases hr : c.reverse with
  | nil => simp [hr] at hm
  | cons cp rest =>
    rw [hr] at hcl
    simp only [hr, Bool.and_eq_true] at hm ⊢
    exact ⟨matchCompound_static cp _ (hcl cp (List.mem_cons_self _ _)) hm.1,
      matchAncestors_static rest (fun x hx => hcl x (List.mem_cons_of_mem _ hx)) _ hm.2⟩

/-- Selections are monotone in the selector list. -/
theorem matchesSelector_mono (sep : Char → Bool) (s1 s2 : SelectorList)
    (hsub : ∀ c ∈ s1, c ∈ s2) (e : Element)
    (h : matchesSelector sep s1 e = true) : matchesSelector sep s2 e = true := by
  unfold matchesSelector at h ⊢
  rw [List.any_eq_true] at h ⊢
  rcases h with ⟨c, hc, hm⟩
  exact ⟨c, hsub c hc, hm⟩

/-- Without an element matching the container selectors, neither pass of the static
handler finds a card, and the page has no container. -/
theorem no_container_no_card (doc : Nodes) (h : select doc containerSelector = []) :
    select doc genericSelector = [] ∧ select doc fallbackSelector = [] ∧
      documentQuerySelectorAll doc containerSelector = [] := by
  unfold select at h
  rw [List.filter_eq_nil_iff] at h
  refine ⟨?_, ?_, ?_⟩
  · unfold select
    rw [List.filter_eq_nil_iff]
    intro e he hm
    exact h e he (matchesSelector_mono _ genericSelector containerSelector (by decide) e hm)
  · unfold select
    rw [List.filter_eq_nil_iff]
    intro e he hm
    exact h e he (matchesSelector_mono _ fallbackSelector containerSelector (by decide) e hm)
  · unfold documentQuerySelectorAll
    rw [List.filter_eq_nil_iff]
    intro e he hm
    exact h e he (matchesSelector_static containerSelector (by decide) e hm)

/-- Claim C2, as amended: on a document in which no element matches the container selectors
`article, .card, .server-card, .server, .list-item, .media, .serverCard`, the static
extraction and the extraction in the page agree: both yield the empty sequence of
records. -/
theorem pipelines_agree_without_container (P : Platform) (doc : Nodes) (url baseURI : Str)
    (h : select doc containerSelector = []) :
    (cheerioExtract P doc url).items = .ok [] ∧ pageEvaluate P baseURI doc = [] := by
  have hsel := no_container_no_card doc h
  constructor
  · simp [cheerioExtract, candidates, hsel.1, hsel.2.1, eachCard]
  · simp [pageEvaluate, hsel.2.2]

/-- The sample page without container yields no record in either pipeline. -/
theorem pipelines_agree_without_container_witness :
    select plainPage containerSelector = [] ∧
      (cheerioExtract samplePlatform plainPage sampleUrl).items = .ok [] ∧
      pageEvaluate samplePlatform sampleUrl plainPage = [] :=
  ⟨by decide,
    pipelines_agree_without_container samplePlatform plainPage sampleUrl sampleUrl (by decide)⟩

/-- Claim C2 fails as stated: on the sample page with one `article` that holds a heading
only, the static extraction ends normally with no record (the card does not pass the
filter of the generic pass and the fallback selectors match nothing), while the
extraction in the page yields a record named "Chat Hub". -/
theorem pipelines_differ_on_heading_only_page :
    (cheerioExtract samplePlatform headingOnlyPage sampleUrl).items = .ok [] ∧
      pageEvaluate samplePlatform sampleUrl headingOnlyPage =
        [{ server_name := "Chat Hub".toList, invite := [], members_count := []
           online_count := [], tags := [], short_description := [], source_url := [] }] := by
  refine ⟨rfl, by decide⟩

end Scraper
